import Mathlib

/-!
Verification of the Jarvis HUD input-fusion and orientation-control core.

The repository holds two copies of the same React application:
`src/unnamed/part_000` (the revised copy, with a voice hook returning a
last-command timestamp and a 3000 ms voice-suppression window in the
detect loop) and `src/src/App.tsx` (the older copy, without the window).
This file embeds, over exact rationals, the pure control logic of both
copies: the `lerp` helper, the `CONTINENTS` sector table and its
classifier, the per-hand body of `detectLoop`, the speech `onresult`
handler, and the per-frame smoothing callback of `HolographicEarth`.

Conventions of the embedding:
* JavaScript numbers are modelled as exact rationals `ℚ`; `Math.PI` is
  modelled by the exact rational value of the IEEE-754 double `Math.PI`.
* `Math.sqrt` has no exact rational counterpart, so every definition that
  needs the Euclidean `getDistance` is parametrized by the host's square
  root function `sqrt : ℚ → ℚ`; all theorems hold for every such function.
* `Date.now()` timestamps are integers (milliseconds), passed explicitly.
* Mutable refs (`earthRotation`, `earthScale`, `panelUI`,
  `lastCmdTimeRef`) become fields of an explicit state record that the
  embedded handlers transform.
* Utterance strings are modelled as `List Char`; `String.prototype.trim`,
  `toLowerCase` and `includes` are modelled character-wise below.
-/

/-- A normalized 2D hand landmark, `(x, y)` in camera space. -/
structure Landmark where
  x : ℚ
  y : ℚ

/-- One detected hand: 21 landmarks at fixed anatomical indices
(0 = wrist, 4 = thumb tip, 8 = index tip, 9 = middle-base). -/
def HandSample : Type := Fin 21 → Landmark

/-- A rotation target `{x, y}` as stored in the `earthRotation` ref. -/
structure Rot where
  x : ℚ
  y : ℚ

/-- A panel position `{x, y}` in screen pixels, the `panelUI` state. -/
structure Panel where
  x : ℚ
  y : ℚ

/-- `lerp` from line 20 of both copies:
`(start, end, t) => start * (1 - t) + end * t`. -/
def lerp (start e t : ℚ) : ℚ := start * (1 - t) + e * t

/-- `getDistance` from line 21 of both copies: the Euclidean distance
`Math.sqrt((p1.x-p2.x)^2 + (p1.y-p2.y)^2)`.  The square root of a
rational is irrational in general, so the host's square-root function is
an explicit parameter `sqrt`. -/
def getDistance (sqrt : ℚ → ℚ) (p1 p2 : Landmark) : ℚ :=
  sqrt ((p1.x - p2.x) ^ 2 + (p1.y - p2.y) ^ 2)

/-- One entry of the `CONTINENTS` table: a display name and the angular
range `rad: [lo, hi]`. -/
structure Continent where
  name : String
  radLo : ℚ
  radHi : ℚ

/-- The `CONTINENTS` table, lines 11–17 (identical in both copies). -/
def CONTINENTS : List Continent :=
  [⟨"AFRICA (非洲)", 0, 1.2⟩,
   ⟨"ASIA (亚洲)", 1.2, 2.5⟩,
   ⟨"PACIFIC (太平洋)", 2.5, 4.0⟩,
   ⟨"AMERICAS (美洲)", 4.0, 5.5⟩,
   ⟨"EUROPE (欧洲)", 5.5, 6.28⟩]

/-- The membership test of `CONTINENTS.find`, line 99 / line 75:
`adjustedRot >= c.rad[0] && adjustedRot < c.rad[1]`. -/
def inRange (a : ℚ) (c : Continent) : Bool :=
  decide (c.radLo ≤ a) && decide (a < c.radHi)

/-- `CONTINENTS.find(c => adjustedRot >= c.rad[0] && adjustedRot < c.rad[1])`. -/
def findContinent (a : ℚ) : Option Continent :=
  CONTINENTS.find? (inRange a)

/-- The exact rational value of the IEEE-754 double `Math.PI`
(`884279719003555 * 2 ^ -48`). -/
def MathPI : ℚ := 884279719003555 / 281474976710656

/-- `Math.PI * 2` (exact: doubling a double only shifts the exponent). -/
def twoPi : ℚ := MathPI * 2

/-- Truncation toward zero, the rounding used by the JavaScript `%`
operator on its implied quotient. -/
def ratTrunc (x : ℚ) : ℤ := if 0 ≤ x then ⌊x⌋ else -⌊-x⌋

/-- The JavaScript remainder operator `a % b`: `a - b * trunc(a / b)`. -/
def jsMod (a b : ℚ) : ℚ := a - b * ratTrunc (a / b)

/-- Line 97: `(rotation.y % (Math.PI * 2) + Math.PI * 2) % (Math.PI * 2)`. -/
def jsNormalize (y : ℚ) : ℚ := jsMod (jsMod y twoPi + twoPi) twoPi

/-- The state read and written by the `useFrame` callback of
`HolographicEarth`: the rendered rotation, the rendered (uniform) scale,
and the currently displayed sector name (the `activeContinent` React
state, updated through `setContinent`). -/
structure EarthState where
  rotY : ℚ
  rotX : ℚ
  scl : ℚ
  continent : String

/-- The `useFrame` body of `HolographicEarth` in `part_000`
(lines 89–102): lerp rotation toward the target with factor 0.05, lerp
scale with factor 0.1, then classify the reflected normalized angle and
update the sector display only when a table entry matches. -/
def earthFrame (target : Rot) (scaleTarget : ℚ) (e : EarthState) : EarthState :=
  let rotY := lerp e.rotY target.y 0.05
  let rotX := lerp e.rotX target.x 0.05
  let newScale := lerp e.scl scaleTarget 0.1
  let normalizedRot := jsNormalize rotY
  let adjustedRot := twoPi - normalizedRot
  { rotY := rotY, rotX := rotX, scl := newScale,
    continent :=
      match findContinent adjustedRot with
      | some c => c.name
      | none => e.continent }

/-- The `useFrame` body of `HolographicEarth` in `App.tsx`
(lines 66–78): identical except that rotation also uses factor 0.1. -/
def appEarthFrame (target : Rot) (scaleTarget : ℚ) (e : EarthState) : EarthState :=
  let rotY := lerp e.rotY target.y 0.1
  let rotX := lerp e.rotX target.x 0.1
  let newScale := lerp e.scl scaleTarget 0.1
  let normalizedRot := jsNormalize rotY
  let adjustedRot := twoPi - normalizedRot
  { rotY := rotY, rotX := rotX, scl := newScale,
    continent :=
      match findContinent adjustedRot with
      | some c => c.name
      | none => e.continent }

/-- The mutable refs of the `part_000` main component that the control
logic writes: `earthRotation.current`, `earthScale.current`, `panelUI`,
and `lastCmdTimeRef.current` (milliseconds). -/
structure ControlState where
  rotation : Rot
  scale : ℚ
  panel : Panel
  lastCmdTime : ℤ

/-- The mutable refs of the `App.tsx` main component: same, but that
copy has no `lastCmdTimeRef`. -/
structure AppControlState where
  rotation : Rot
  scale : ℚ
  panel : Panel

/-- The per-hand body of `detectLoop` in `part_000` (lines 161–191):
read wrist/thumb/index/middle-base, compute the voice-suppression flag
`Date.now() - lastCmdTimeRef.current < 3000`; a hand with `wrist.x > 0.5`
updates the rotation target and the clamped scale target only when the
window is inactive, any other hand drags the panel on a pinch. -/
def detectHand (sqrt : ℚ → ℚ) (screenW screenH : ℚ) (now : ℤ)
    (st : ControlState) (landmarks : HandSample) : ControlState :=
  let wrist := landmarks 0
  let thumbTip := landmarks 4
  let indexTip := landmarks 8
  let midX := (landmarks 9).x
  let midY := (landmarks 9).y
  let isVoiceControlling := now - st.lastCmdTime < 3000
  if wrist.x > 0.5 then
    if ¬ isVoiceControlling then
      let pinch := getDistance sqrt thumbTip indexTip
      { st with
        rotation := { x := (midY - 0.5) * 4, y := (midX - 0.5) * 8 },
        scale := max 0.5 (min 2.5 (pinch * 8)) }
    else st
  else
    if getDistance sqrt thumbTip indexTip < 0.05 then
      { st with panel := ⟨(1 - indexTip.x) * screenW, indexTip.y * screenH⟩ }
    else st

/-- The per-hand body of `detectLoop` in `App.tsx` (lines 134–154):
identical, except there is no voice-suppression window. -/
def appDetectHand (sqrt : ℚ → ℚ) (screenW screenH : ℚ)
    (ast : AppControlState) (landmarks : HandSample) : AppControlState :=
  let wrist := landmarks 0
  let thumbTip := landmarks 4
  let indexTip := landmarks 8
  let midX := (landmarks 9).x
  let midY := (landmarks 9).y
  if wrist.x > 0.5 then
    let pinch := getDistance sqrt thumbTip indexTip
    { ast with
      rotation := { x := (midY - 0.5) * 4, y := (midX - 0.5) * 8 },
      scale := max 0.5 (min 2.5 (pinch * 8)) }
  else
    if getDistance sqrt thumbTip indexTip < 0.05 then
      { ast with panel := ⟨(1 - indexTip.x) * screenW, indexTip.y * screenH⟩ }
    else ast

/-- The role the detect loop assigns to a hand: the branch condition at
line 175 of `part_000` / line 144 of `App.tsx` (`wrist.x > 0.5` takes
the globe-orientation branch, anything else the panel-pointer branch). -/
inductive Role where
  | orientation
  | pointer

/-- Role assignment: `wrist.x > 0.5` selects the Orientation branch of
the detect loop, otherwise the Pointer branch. -/
def roleOf (landmarks : HandSample) : Role :=
  if (landmarks 0).x > 0.5 then Role.orientation else Role.pointer

/-- Whether a character counts as trimmable whitespace (model of the
whitespace stripped by `String.prototype.trim`). -/
def isSpaceChar (c : Char) : Bool := c.isWhitespace

/-- Character-wise model of `String.prototype.trim`. -/
def trimChars (cs : List Char) : List Char :=
  ((cs.dropWhile isSpaceChar).reverse.dropWhile isSpaceChar).reverse

/-- Character-wise model of `String.prototype.toLowerCase` (identity on
the CJK keywords, ASCII lowering otherwise, as in JavaScript). -/
def lowerChars (cs : List Char) : List Char := cs.map Char.toLower

/-- `pat` is a prefix of `s` (helper for substring containment). -/
def isPrefixList : List Char → List Char → Bool
  | [], _ => true
  | _ :: _, [] => false
  | a :: as, b :: bs => a == b && isPrefixList as bs

/-- Model of `text.includes(pat)`: `pat` occurs contiguously in `text`. -/
def containsList : List Char → List Char → Bool
  | [], pat => isPrefixList pat []
  | c :: rest, pat => isPrefixList pat (c :: rest) || containsList rest pat

/-- The `recognition.onresult` handler of `useJarvisVoice` in `part_000`
(lines 49–75): trim and lower-case the transcript, run it through the
ordered keyword chain; a matching branch overwrites
`earthRotation.current` with the bound rotation and stamps
`lastCmdTimeRef.current = Date.now()`; no match leaves both alone.  (The
handler also surfaces a status string for display, which carries no
control state and is not modelled.) -/
def onVoiceResult (now : ℤ) (transcript : List Char) (st : ControlState) : ControlState :=
  let text := lowerChars (trimChars transcript)
  if containsList text ("africa".toList) || containsList text ("非洲".toList) then
    { st with rotation := ⟨0, 0.5⟩, lastCmdTime := now }
  else if containsList text ("asia".toList) || containsList text ("china".toList) ||
      containsList text ("亚洲".toList) || containsList text ("中国".toList) then
    { st with rotation := ⟨0.2, 2.0⟩, lastCmdTime := now }
  else if containsList text ("america".toList) || containsList text ("usa".toList) ||
      containsList text ("美洲".toList) || containsList text ("美国".toList) then
    { st with rotation := ⟨0, 4.8⟩, lastCmdTime := now }
  else if containsList text ("europe".toList) || containsList text ("欧洲".toList) then
    { st with rotation := ⟨0.3, 5.8⟩, lastCmdTime := now }
  else if containsList text ("reset".toList) || containsList text ("stop".toList) ||
      containsList text ("重置".toList) then
    { st with rotation := ⟨0, 0⟩, lastCmdTime := now }
  else st

/-- The `recognition.onresult` handler of `useJarvisVoice` in `App.tsx`
(lines 43–53): English-only keyword chain, no timestamp. -/
def appOnVoiceResult (transcript : List Char) (ast : AppControlState) : AppControlState :=
  let command := lowerChars (trimChars transcript)
  if containsList command ("africa".toList) then
    { ast with rotation := ⟨0, 0.5⟩ }
  else if containsList command ("asia".toList) || containsList command ("china".toList) then
    { ast with rotation := ⟨0.2, 2.0⟩ }
  else if containsList command ("america".toList) then
    { ast with rotation := ⟨0, 4.8⟩ }
  else if containsList command ("europe".toList) then
    { ast with rotation := ⟨0.3, 5.8⟩ }
  else if containsList command ("reset".toList) then
    { ast with rotation := ⟨0, 0⟩ }
  else ast

/-- Spec-side view of the voice command table (section 4.2 of the spec):
an ordered list of keyword sets, each bound to a fixed rotation; an
utterance selects the first entry one of whose keywords it contains.
Used to state that the if/else chain of `onVoiceResult` refines it. -/
def specVoiceTable : List (List (List Char) × Rot) :=
  [(["africa".toList, "非洲".toList], ⟨0, 0.5⟩),
   (["asia".toList, "china".toList, "亚洲".toList, "中国".toList], ⟨0.2, 2.0⟩),
   (["america".toList, "usa".toList, "美洲".toList, "美国".toList], ⟨0, 4.8⟩),
   (["europe".toList, "欧洲".toList], ⟨0.3, 5.8⟩),
   (["reset".toList, "stop".toList, "重置".toList], ⟨0, 0⟩)]

/-- Spec-side matcher: the rotation bound to the first table entry one of
whose keywords the (already trimmed and lower-cased) text contains. -/
def specTableMatch (text : List Char) : Option Rot :=
  (specVoiceTable.find? (fun e => e.1.any (fun kw => containsList text kw))).map Prod.snd

/-- The n-fold application of the smoothing step `s ↦ lerp s t alpha`
performed by the render callback, one application per rendered frame. -/
def lerpIter (t alpha s : ℚ) : ℕ → ℚ
  | 0 => s
  | n + 1 => lerp (lerpIter t alpha s n) t alpha

/-- The convergence property stated by the spec for the smoother:
iterating `lerp · t alpha` from `s` approaches `t` strictly
monotonically, from the side of `s`, without ever reaching `t`, and gets
below every positive tolerance. -/
def LerpConverges (s t alpha : ℚ) : Prop :=
  (∀ n, lerpIter t alpha s n ≠ t) ∧
  (∀ n, |lerpIter t alpha s (n + 1) - t| < |lerpIter t alpha s n - t|) ∧
  (s < t → ∀ n, lerpIter t alpha s n < lerpIter t alpha s (n + 1) ∧ lerpIter t alpha s n < t) ∧
  (t < s → ∀ n, lerpIter t alpha s (n + 1) < lerpIter t alpha s n ∧ t < lerpIter t alpha s n) ∧
  (∀ ε : ℚ, 0 < ε → ∃ N, ∀ n, N ≤ n → |lerpIter t alpha s n - t| < ε)

/-- The whole mutable state of the `part_000` application: the control
refs plus the rendered earth state. -/
structure SysState where
  ctrl : ControlState
  earth : EarthState

/-- The initial state of `part_000`: `earthRotation = {x:0, y:0}`,
`earthScale = 1`, `panelUI = {x: innerWidth - 320, y: 100}`,
`lastCmdTimeRef = 0`; the rendered group starts with rotation 0 and
scale 1 (three.js defaults) and the sector display reads `SCANNING...`. -/
def initState (screenW : ℚ) : SysState :=
  ⟨⟨⟨0, 0⟩, 1, ⟨screenW - 320, 100⟩, 0⟩, ⟨0, 0, 1, "SCANNING..."⟩⟩

/-- One atomic event of the `part_000` single-threaded timeline: a hand
processed by the detect loop (with arbitrary detector output, clock
value and square-root function), a speech result, or one render frame. -/
inductive SysStep : SysState → SysState → Prop where
  | hand : ∀ (s : SysState) (sqrt : ℚ → ℚ) (w h : ℚ) (now : ℤ) (lm : HandSample),
      SysStep s ⟨detectHand sqrt w h now s.ctrl lm, s.earth⟩
  | voice : ∀ (s : SysState) (now : ℤ) (t : List Char),
      SysStep s ⟨onVoiceResult now t s.ctrl, s.earth⟩
  | render : ∀ (s : SysState),
      SysStep s ⟨s.ctrl, earthFrame s.ctrl.rotation s.ctrl.scale s.earth⟩

/-- States reachable from the initial state by any interleaving of hand,
voice and render events. -/
inductive Reachable : SysState → Prop where
  | init : ∀ w : ℚ, Reachable (initState w)
  | step : ∀ s s', Reachable s → SysStep s s' → Reachable s'

/-- A concrete hand sample: every landmark at `(0.7, 0.25)` (so the
wrist sits right of center and the pinch distance is 0). -/
def lm0 : HandSample := fun _ => ⟨0.7, 0.25⟩

/-- A concrete hand sample with the same wrist x-coordinate as `lm0` but
different y-coordinates at every landmark. -/
def lmAlt : HandSample := fun i => ⟨0.7, ((i : ℕ) : ℚ) / 40⟩

/-- A concrete control state matching the initial refs of `part_000`. -/
def st0 : ControlState := ⟨⟨0, 0⟩, 1, ⟨680, 100⟩, 0⟩

/-- A concrete control state matching the initial refs of `App.tsx`. -/
def app0 : AppControlState := ⟨⟨0, 0⟩, 1, ⟨680, 100⟩⟩

/-- A concrete `part_000` control state whose rotation target is the
Europe preset. -/
def stEur : ControlState := ⟨⟨0.3, 5.8⟩, 1, ⟨680, 100⟩, 0⟩

/-- A concrete `App.tsx` control state with the same visible fields as
`stEur`. -/
def appEur : AppControlState := ⟨⟨0.3, 5.8⟩, 1, ⟨680, 100⟩⟩

/-- The initial rendered earth state. -/
def earth0 : EarthState := ⟨0, 0, 1, "SCANNING..."⟩
-- helper lemmas + C3, appended after definitions for testing

/-- Unfolding of the sector membership test. -/
theorem inRange_iff (a lo hi : ℚ) (nm : String) :
    inRange a ⟨nm, lo, hi⟩ = true ↔ lo ≤ a ∧ a < hi := by
  simp [inRange]

/-- Piecewise characterization of the classifier: first match in table
order, with each test half-open on the upper bound. -/
theorem findContinent_cases (a : ℚ) :
    findContinent a =
      if 0 ≤ a ∧ a < 1.2 then some ⟨"AFRICA (非洲)", 0, 1.2⟩
      else if 1.2 ≤ a ∧ a < 2.5 then some ⟨"ASIA (亚洲)", 1.2, 2.5⟩
      else if 2.5 ≤ a ∧ a < 4.0 then some ⟨"PACIFIC (太平洋)", 2.5, 4.0⟩
      else if 4.0 ≤ a ∧ a < 5.5 then some ⟨"AMERICAS (美洲)", 4.0, 5.5⟩
      else if 5.5 ≤ a ∧ a < 6.28 then some ⟨"EUROPE (欧洲)", 5.5, 6.28⟩
      else none := by
  unfold findContinent CONTINENTS
  by_cases h1 : 0 ≤ a ∧ a < 1.2
  · rw [List.find?_cons_of_pos _ ((inRange_iff a 0 1.2 _).mpr h1), if_pos h1]
  · rw [List.find?_cons_of_neg _ (by rw [inRange_iff]; exact h1), if_neg h1]
    by_cases h2 : 1.2 ≤ a ∧ a < 2.5
    · rw [List.find?_cons_of_pos _ ((inRange_iff a 1.2 2.5 _).mpr h2), if_pos h2]
    · rw [List.find?_cons_of_neg _ (by rw [inRange_iff]; exact h2), if_neg h2]
      by_cases h3 : 2.5 ≤ a ∧ a < 4.0
      · rw [List.find?_cons_of_pos _ ((inRange_iff a 2.5 4.0 _).mpr h3), if_pos h3]
      · rw [List.find?_cons_of_neg _ (by rw [inRange_iff]; exact h3), if_neg h3]
        by_cases h4 : 4.0 ≤ a ∧ a < 5.5
        · rw [List.find?_cons_of_pos _ ((inRange_iff a 4.0 5.5 _).mpr h4), if_pos h4]
        · rw [List.find?_cons_of_neg _ (by rw [inRange_iff]; exact h4), if_neg h4]
          by_cases h5 : 5.5 ≤ a ∧ a < 6.28
          · rw [List.find?_cons_of_pos _ ((inRange_iff a 5.5 6.28 _).mpr h5), if_pos h5]
          · rw [List.find?_cons_of_neg _ (by rw [inRange_iff]; exact h5), if_neg h5,
              List.find?_nil]

/-- C3 counterexample: `6.281` lies in `[0, 2π)` for the code's value of
`2π` but matches no sector entry, so the five ranges do not cover
`[0, 2π)`. -/
theorem sector_cover_gap_cex :
    (0 : ℚ) ≤ 6.281 ∧ (6.281 : ℚ) < twoPi ∧ findContinent 6.281 = none := by
  refine ⟨by norm_num, by norm_num [twoPi, MathPI], ?_⟩
  rw [findContinent_cases]
  norm_num

/-- C3 (amended): the five sector ranges are pairwise non-overlapping and
cover `[0, 6.28)` with no gap, each half-open on its upper bound so the
reflected angle exactly `1.2` classifies as Asia; but the table stops at
`6.28 < 2π`, so reflected angles in `[6.28, 2π)` match no sector. -/
theorem sector_partition (a : ℚ) :
    (0 ≤ a → a < 6.28 → (findContinent a).isSome = true) ∧
    (∀ c ∈ CONTINENTS, ∀ c' ∈ CONTINENTS,
      inRange a c = true → inRange a c' = true → c = c') ∧
    (6.28 ≤ a → a < twoPi → findContinent a = none) ∧
    findContinent 1.2 = some ⟨"ASIA (亚洲)", 1.2, 2.5⟩ := by
  refine ⟨?_, ?_, ?_, ?_⟩
  · intro h0 h628
    rw [findContinent_cases]
    split_ifs with h1 h2 h3 h4 h5
    · rfl
    · rfl
    · rfl
    · rfl
    · rfl
    · exfalso
      push_neg at h1 h2 h3 h4 h5
      have g1 := h1 h0
      have g2 := h2 (by linarith)
      have g3 := h3 (by linarith)
      have g4 := h4 (by linarith)
      have g5 := h5 (by linarith)
      linarith
  · intro c hc c' hc'
    simp only [CONTINENTS, List.mem_cons, List.not_mem_nil, or_false] at hc hc'
    rcases hc with rfl | rfl | rfl | rfl | rfl <;>
      rcases hc' with rfl | rfl | rfl | rfl | rfl <;>
      simp only [inRange_iff] <;>
      intro h h' <;>
      first
        | trivial
        | (exfalso; obtain ⟨u1, u2⟩ := h; obtain ⟨u3, u4⟩ := h'; linarith)
  · intro h628 _
    rw [findContinent_cases]
    split_ifs with h1 h2 h3 h4 h5
    · exact absurd h1.2 (by linarith)
    · exact absurd h2.2 (by linarith)
    · exact absurd h3.2 (by linarith)
    · exact absurd h4.2 (by linarith)
    · exact absurd h5.2 (by linarith)
    · rfl
  · rw [findContinent_cases]
    norm_num

/-- Witness for `sector_partition`: the hypotheses hold at the concrete
angles `1.3` (covered) and `6.283` (in the uncovered tail). -/
theorem sector_partition_witness :
    (findContinent 1.3).isSome = true ∧ findContinent 6.283 = none :=
  ⟨(sector_partition 1.3).1 (by norm_num) (by norm_num),
   (sector_partition 6.283).2.2.1 (by norm_num) (by norm_num [twoPi, MathPI])⟩

/-- The voice handler never touches the scale target (there is no write
to `earthScale` anywhere in `useJarvisVoice`). -/
theorem onVoiceResult_scale (now : ℤ) (t : List Char) (st : ControlState) :
    (onVoiceResult now t st).scale = st.scale := by
  simp only [onVoiceResult]
  repeat' split
  all_goals rfl

/-- C8: on a frame whose reflected, normalized rotation angle matches no
entry of `CONTINENTS`, the displayed sector name is left unchanged. -/
theorem sector_no_match_retained (target : Rot) (scaleTarget : ℚ) (e : EarthState)
    (hnone : findContinent (twoPi - jsNormalize (lerp e.rotY target.y 0.05)) = none) :
    (earthFrame target scaleTarget e).continent = e.continent := by
  simp only [earthFrame, hnone]

/-- Witness for `sector_no_match_retained`: from rendered rotation 0 and
target 0, the frame computes the reflected angle exactly `2π`, which
matches no sector, so the display keeps reading `SCANNING...`. -/
theorem sector_no_match_retained_witness :
    (earthFrame ⟨0, 0⟩ 1 earth0).continent = earth0.continent :=
  sector_no_match_retained ⟨0, 0⟩ 1 earth0 (by
    have h1 : lerp earth0.rotY (Rot.mk 0 0).y 0.05 = 0 := by
      norm_num [earth0, lerp]
    rw [h1]
    have h2 : jsNormalize 0 = 0 := by
      norm_num [jsNormalize, jsMod, ratTrunc, twoPi, MathPI]
    rw [h2, sub_zero, findContinent_cases]
    norm_num [twoPi, MathPI])

/-- C1: for an Orientation-role hand (`wrist.x > 0.5`), a detect frame
inside the 3000 ms voice window (`now - lastCmdTime < 3000`) leaves the
rotation target untouched, while a frame with `now - lastCmdTime ≥ 3000`
(the boundary `T + 3000` included) overwrites it with the
gesture-derived rotation `x = (landmark9.y - 0.5)·4`,
`y = (landmark9.x - 0.5)·8`. -/
theorem detect_orientation_voice_suppression (sqrt : ℚ → ℚ) (w h : ℚ) (now : ℤ)
    (st : ControlState) (lm : HandSample) (horient : (lm 0).x > 0.5) :
    (now - st.lastCmdTime < 3000 →
      (detectHand sqrt w h now st lm).rotation = st.rotation) ∧
    (3000 ≤ now - st.lastCmdTime →
      (detectHand sqrt w h now st lm).rotation =
        ⟨((lm 9).y - 0.5) * 4, ((lm 9).x - 0.5) * 8⟩) := by
  constructor
  · intro hwin
    simp only [detectHand]
    rw [if_pos horient, if_neg (not_not_intro hwin)]
  · intro hge
    simp only [detectHand]
    rw [if_pos horient, if_pos (not_lt.mpr hge)]

/-- Witness for `detect_orientation_voice_suppression`: at
`now = 3000` with `lastCmdTime = 0` — exactly the window boundary — the
gesture is honored. -/
theorem detect_orientation_voice_suppression_witness :
    ((3000 : ℤ) - st0.lastCmdTime < 3000 →
      (detectHand id 100 100 3000 st0 lm0).rotation = st0.rotation) ∧
    (3000 ≤ (3000 : ℤ) - st0.lastCmdTime →
      (detectHand id 100 100 3000 st0 lm0).rotation =
        ⟨((lm0 9).y - 0.5) * 4, ((lm0 9).x - 0.5) * 8⟩) :=
  detect_orientation_voice_suppression id 100 100 3000 st0 lm0 (by norm_num [lm0])

/-- C2 counterexample: a suppressed frame (voice matched 0 ms ago) with
an Orientation-role hand present leaves the scale target at its old
value 1 instead of updating it to the clamped pinch scale 0.5. -/
theorem gesture_scale_suppressed_cex :
    (lm0 0).x > 0.5 ∧
    (detectHand id 100 100 0 st0 lm0).scale = st0.scale ∧
    st0.scale ≠ max 0.5 (min 2.5 (getDistance id (lm0 4) (lm0 8) * 8)) := by
  refine ⟨by norm_num [lm0], ?_, ?_⟩
  · norm_num [detectHand, lm0, st0]
  · norm_num [getDistance, lm0, st0]

/-- C2 (amended): for an Orientation-role hand the scale target follows
the same 3000 ms window as rotation — it is updated to the clamped pinch
scale only when the window is inactive and is left unchanged inside the
window; voice commands never change the scale target. -/
theorem gesture_scale_window (sqrt : ℚ → ℚ) (w h : ℚ) (now : ℤ)
    (st : ControlState) (lm : HandSample) (horient : (lm 0).x > 0.5) :
    (now - st.lastCmdTime < 3000 →
      (detectHand sqrt w h now st lm).scale = st.scale) ∧
    (3000 ≤ now - st.lastCmdTime →
      (detectHand sqrt w h now st lm).scale =
        max 0.5 (min 2.5 (getDistance sqrt (lm 4) (lm 8) * 8))) ∧
    (∀ (n2 : ℤ) (t : List Char) (st2 : ControlState),
      (onVoiceResult n2 t st2).scale = st2.scale) := by
  refine ⟨?_, ?_, fun n2 t st2 => onVoiceResult_scale n2 t st2⟩
  · intro hwin
    simp only [detectHand]
    rw [if_pos horient, if_neg (not_not_intro hwin)]
  · intro hge
    simp only [detectHand]
    rw [if_pos horient, if_pos (not_lt.mpr hge)]

/-- Witness for `gesture_scale_window` at the concrete suppressed and
unsuppressed frames of `lm0`/`st0` with `now = 4000`. -/
theorem gesture_scale_window_witness :
    ((4000 : ℤ) - st0.lastCmdTime < 3000 →
      (detectHand id 100 100 4000 st0 lm0).scale = st0.scale) ∧
    (3000 ≤ (4000 : ℤ) - st0.lastCmdTime →
      (detectHand id 100 100 4000 st0 lm0).scale =
        max 0.5 (min 2.5 (getDistance id (lm0 4) (lm0 8) * 8))) ∧
    (∀ (n2 : ℤ) (t : List Char) (st2 : ControlState),
      (onVoiceResult n2 t st2).scale = st2.scale) :=
  gesture_scale_window id 100 100 4000 st0 lm0 (by norm_num [lm0])

/-- C6: for an Orientation-role hand outside the voice window, the scale
target written by the detect loop equals
`max(0.5, min(2.5, distance·8))` for the frame's pinch distance — for
every possible distance value, negative or oversized pseudo-distances
included, since `sqrt` ranges over all functions — and that value always
lies in `[0.5, 2.5]`. -/
theorem detect_scale_clamped (sqrt : ℚ → ℚ) (w h : ℚ) (now : ℤ)
    (st : ControlState) (lm : HandSample) (horient : (lm 0).x > 0.5)
    (hwin : ¬ (now - st.lastCmdTime < 3000)) :
    (detectHand sqrt w h now st lm).scale =
      max 0.5 (min 2.5 (getDistance sqrt (lm 4) (lm 8) * 8)) ∧
    0.5 ≤ (detectHand sqrt w h now st lm).scale ∧
    (detectHand sqrt w h now st lm).scale ≤ 2.5 := by
  have heq : (detectHand sqrt w h now st lm).scale =
      max 0.5 (min 2.5 (getDistance sqrt (lm 4) (lm 8) * 8)) := by
    simp only [detectHand]
    rw [if_pos horient, if_pos hwin]
  refine ⟨heq, ?_, ?_⟩
  · rw [heq]
    exact le_max_left _ _
  · rw [heq]
    exact max_le (by norm_num) (min_le_left _ _)

/-- Witness for `detect_scale_clamped` with the pseudo-distance `-5`
(the square-root parameter is the constant `-5` function): the written
scale is the clamp's lower bound `0.5`. -/
theorem detect_scale_clamped_witness :
    (detectHand (fun _ => -5) 100 100 4000 st0 lm0).scale =
      max 0.5 (min 2.5 (getDistance (fun _ => -5) (lm0 4) (lm0 8) * 8)) ∧
    0.5 ≤ (detectHand (fun _ => -5) 100 100 4000 st0 lm0).scale ∧
    (detectHand (fun _ => -5) 100 100 4000 st0 lm0).scale ≤ 2.5 :=
  detect_scale_clamped (fun _ => -5) 100 100 4000 st0 lm0
    (by norm_num [lm0]) (by norm_num [st0])

/-- C7: the detect loop's role assignment depends only on the wrist
(landmark 0) x-coordinate: samples with equal wrist x get equal roles,
and `wrist.x = 0.51` yields the Orientation role while `wrist.x = 0.49`
yields the Pointer role, whatever the other landmarks are. -/
theorem role_wrist_only (l1 l2 : HandSample) (hw : (l1 0).x = (l2 0).x) :
    roleOf l1 = roleOf l2 ∧
    (∀ lm : HandSample, (lm 0).x = 0.51 → roleOf lm = Role.orientation) ∧
    (∀ lm : HandSample, (lm 0).x = 0.49 → roleOf lm = Role.pointer) := by
  refine ⟨?_, ?_, ?_⟩
  · simp only [roleOf, hw]
  · intro lm hlm
    simp only [roleOf, hlm]
    norm_num
  · intro lm hlm
    simp only [roleOf, hlm]
    norm_num

/-- Witness for `role_wrist_only`: `lm0` and `lmAlt` share the wrist
x-coordinate `0.7` but differ at every other landmark. -/
theorem role_wrist_only_witness :
    roleOf lm0 = roleOf lmAlt ∧
    (∀ lm : HandSample, (lm 0).x = 0.51 → roleOf lm = Role.orientation) ∧
    (∀ lm : HandSample, (lm 0).x = 0.49 → roleOf lm = Role.pointer) :=
  role_wrist_only lm0 lmAlt rfl

/-- The smoothing step shrinks the distance to the target geometrically:
`lerpIter t alpha s n - t = (1 - alpha)^n * (s - t)`. -/
theorem lerpIter_sub (t alpha s : ℚ) (n : ℕ) :
    lerpIter t alpha s n - t = (1 - alpha) ^ n * (s - t) := by
  induction n with
  | zero => simp [lerpIter]
  | succ n ih =>
    simp only [lerpIter]
    calc lerp (lerpIter t alpha s n) t alpha - t
        = (1 - alpha) * (lerpIter t alpha s n - t) := by rw [lerp]; ring
      _ = (1 - alpha) * ((1 - alpha) ^ n * (s - t)) := by rw [ih]
      _ = (1 - alpha) ^ (n + 1) * (s - t) := by ring

/-- C5: for either smoothing factor used by the render callbacks
(`0.05` in `part_000`, `0.1` in `App.tsx`), iterating
`s ↦ lerp s t alpha` from `s ≠ t` approaches `t` strictly monotonically
from the side of `s` without overshooting, never equals `t` after any
finite number of frames, and eventually gets below every positive
tolerance. -/
theorem lerp_convergence (s t alpha : ℚ) (halpha : alpha = 0.05 ∨ alpha = 0.1)
    (hst : s ≠ t) : LerpConverges s t alpha := by
  have ha0 : 0 < alpha := by rcases halpha with rfl | rfl <;> norm_num
  have hb0 : 0 < 1 - alpha := by rcases halpha with rfl | rfl <;> norm_num
  have hb1 : 1 - alpha < 1 := by rcases halpha with rfl | rfl <;> norm_num
  have hd : s - t ≠ 0 := sub_ne_zero.mpr hst
  unfold LerpConverges
  refine ⟨?_, ?_, ?_, ?_, ?_⟩
  · intro n hEq
    have h := lerpIter_sub t alpha s n
    rw [hEq, sub_self] at h
    rcases mul_eq_zero.mp h.symm with hc | hc
    · exact pow_ne_zero n (ne_of_gt hb0) hc
    · exact hd hc
  · intro n
    have hA : 0 < |(1 - alpha) ^ n * (s - t)| :=
      abs_pos.mpr (mul_ne_zero (pow_ne_zero _ (ne_of_gt hb0)) hd)
    rw [lerpIter_sub, lerpIter_sub, pow_succ,
      show (1 - alpha) ^ n * (1 - alpha) * (s - t)
          = (1 - alpha) * ((1 - alpha) ^ n * (s - t)) from by ring,
      abs_mul, abs_of_pos hb0]
    exact mul_lt_of_lt_one_left hA hb1
  · intro hlt n
    have hdneg : s - t < 0 := sub_neg.mpr hlt
    have hn := lerpIter_sub t alpha s n
    have hn1 := lerpIter_sub t alpha s (n + 1)
    have hpn : 0 < (1 - alpha) ^ n := pow_pos hb0 n
    constructor
    · have key : lerpIter t alpha s (n + 1) - lerpIter t alpha s n =
          ((1 - alpha) ^ n * alpha) * (t - s) := by
        calc lerpIter t alpha s (n + 1) - lerpIter t alpha s n
            = (lerpIter t alpha s (n + 1) - t) - (lerpIter t alpha s n - t) := by ring
          _ = (1 - alpha) ^ (n + 1) * (s - t) - (1 - alpha) ^ n * (s - t) := by
              rw [hn, hn1]
          _ = ((1 - alpha) ^ n * alpha) * (t - s) := by rw [pow_succ]; ring
      have hpos : 0 < ((1 - alpha) ^ n * alpha) * (t - s) :=
        mul_pos (mul_pos hpn ha0) (by linarith)
      linarith [key, hpos]
    · have : (1 - alpha) ^ n * (s - t) < 0 := mul_neg_of_pos_of_neg hpn hdneg
      linarith [hn]
  · intro hgt n
    have hdpos : 0 < s - t := sub_pos.mpr hgt
    have hn := lerpIter_sub t alpha s n
    have hn1 := lerpIter_sub t alpha s (n + 1)
    have hpn : 0 < (1 - alpha) ^ n := pow_pos hb0 n
    constructor
    · have key : lerpIter t alpha s (n + 1) - lerpIter t alpha s n =
          ((1 - alpha) ^ n * alpha) * (t - s) := by
        calc lerpIter t alpha s (n + 1) - lerpIter t alpha s n
            = (lerpIter t alpha s (n + 1) - t) - (lerpIter t alpha s n - t) := by ring
          _ = (1 - alpha) ^ (n + 1) * (s - t) - (1 - alpha) ^ n * (s - t) := by
              rw [hn, hn1]
          _ = ((1 - alpha) ^ n * alpha) * (t - s) := by rw [pow_succ]; ring
      have hneg : ((1 - alpha) ^ n * alpha) * (t - s) < 0 :=
        mul_neg_of_pos_of_neg (mul_pos hpn ha0) (by linarith)
      linarith [key, hneg]
    · have : 0 < (1 - alpha) ^ n * (s - t) := mul_pos hpn hdpos
      linarith [hn]
  · intro ε hε
    have habs : 0 < |s - t| := abs_pos.mpr hd
    obtain ⟨N, hN⟩ := exists_pow_lt_of_lt_one (div_pos hε habs) hb1
    refine ⟨N, fun n hn => ?_⟩
    rw [lerpIter_sub, abs_mul, abs_of_pos (pow_pos hb0 n)]
    have h2 : (1 - alpha) ^ n ≤ (1 - alpha) ^ N :=
      pow_le_pow_of_le_one (le_of_lt hb0) (le_of_lt hb1) hn
    calc (1 - alpha) ^ n * |s - t|
        ≤ (1 - alpha) ^ N * |s - t| :=
          mul_le_mul_of_nonneg_right h2 (le_of_lt habs)
      _ < (ε / |s - t|) * |s - t| := mul_lt_mul_of_pos_right hN habs
      _ = ε := div_mul_cancel₀ ε (ne_of_gt habs)

/-- Witness for `lerp_convergence` at `s = 0`, `t = 1`, `alpha = 0.05`. -/
theorem lerp_convergence_witness : LerpConverges 0 1 0.05 :=
  lerp_convergence 0 1 0.05 (Or.inl rfl) (by norm_num)

/-- C4: the if/else keyword chain of the `part_000` voice handler
implements exactly the ordered five-entry table `specVoiceTable`: the
utterance (trimmed, lower-cased) picks the first entry one of whose
keywords it contains, whose bound rotation overwrites the target and
whose match stamps `lastCmdTime = now`; an utterance matching no entry
changes neither. -/
theorem voice_table_semantics (now : ℤ) (st : ControlState) (transcript : List Char) :
    (onVoiceResult now transcript st).rotation =
      (specTableMatch (lowerChars (trimChars transcript))).getD st.rotation ∧
    (onVoiceResult now transcript st).lastCmdTime =
      (if (specTableMatch (lowerChars (trimChars transcript))).isSome then now
       else st.lastCmdTime) := by
  simp only [onVoiceResult, specTableMatch, specVoiceTable]
  set x := lowerChars (trimChars transcript) with hx
  by_cases a1 : containsList x ['a', 'f', 'r', 'i', 'c', 'a'] = true
  · simp [List.find?, a1]
  · by_cases a2 : containsList x ['非', '洲'] = true
    · simp [List.find?, a1, a2]
    · by_cases a3 : containsList x ['a', 's', 'i', 'a'] = true
      · simp [List.find?, a1, a2, a3]
      · by_cases a4 : containsList x ['c', 'h', 'i', 'n', 'a'] = true
        · simp [List.find?, a1, a2, a3, a4]
        · by_cases a5 : containsList x ['亚', '洲'] = true
          · simp [List.find?, a1, a2, a3, a4, a5]
          · by_cases a6 : containsList x ['中', '国'] = true
            · simp [List.find?, a1, a2, a3, a4, a5, a6]
            · by_cases a7 : containsList x ['a', 'm', 'e', 'r', 'i', 'c', 'a'] = true
              · simp [List.find?, a1, a2, a3, a4, a5, a6, a7]
              · by_cases a8 : containsList x ['u', 's', 'a'] = true
                · simp [List.find?, a1, a2, a3, a4, a5, a6, a7, a8]
                · by_cases a9 : containsList x ['美', '洲'] = true
                  · simp [List.find?, a1, a2, a3, a4, a5, a6, a7, a8, a9]
                  · by_cases a10 : containsList x ['美', '国'] = true
                    · simp [List.find?, a1, a2, a3, a4, a5, a6, a7, a8, a9, a10]
                    · by_cases a11 : containsList x ['e', 'u', 'r', 'o', 'p', 'e'] = true
                      · simp [List.find?, a1, a2, a3, a4, a5, a6, a7, a8, a9, a10, a11]
                      · by_cases a12 : containsList x ['欧', '洲'] = true
                        · simp [List.find?, a1, a2, a3, a4, a5, a6, a7, a8, a9, a10,
                            a11, a12]
                        · by_cases a13 : containsList x ['r', 'e', 's', 'e', 't'] = true
                          · simp [List.find?, a1, a2, a3, a4, a5, a6, a7, a8, a9, a10,
                              a11, a12, a13]
                          · by_cases a14 : containsList x ['s', 't', 'o', 'p'] = true
                            · simp [List.find?, a1, a2, a3, a4, a5, a6, a7, a8, a9, a10,
                                a11, a12, a13, a14]
                            · by_cases a15 : containsList x ['重', '置'] = true
                              · simp [List.find?, a1, a2, a3, a4, a5, a6, a7, a8, a9,
                                  a10, a11, a12, a13, a14, a15]
                              · simp [List.find?, a1, a2, a3, a4, a5, a6, a7, a8, a9,
                                  a10, a11, a12, a13, a14, a15]

/-- C9 counterexample: the two copies are not behaviourally equivalent.
With identical inputs and aligned initial state: (1) one render frame
from rotation 0 toward target 1 smooths to 0.05 in `part_000` but 0.1 in
`App.tsx`; (2) the utterance `stop` retargets `part_000` to the reset
rotation but leaves `App.tsx` unchanged; (3) a detect frame 0 ms after a
voice command is suppressed in `part_000` but applied in `App.tsx`. -/
theorem versions_differ_cex :
    (earthFrame ⟨0, 1⟩ 1 earth0).rotY ≠ (appEarthFrame ⟨0, 1⟩ 1 earth0).rotY ∧
    ((onVoiceResult 5 ("stop".toList) stEur).rotation.y ≠ stEur.rotation.y ∧
      (appOnVoiceResult ("stop".toList) appEur).rotation.y = appEur.rotation.y) ∧
    (detectHand id 100 100 0 st0 lm0).rotation.y ≠
      (appDetectHand id 100 100 app0 lm0).rotation.y := by
  have e1 : lowerChars (trimChars ['s', 't', 'o', 'p']) = ['s', 't', 'o', 'p'] := by decide
  have c1 : containsList ['s', 't', 'o', 'p'] ['a', 'f', 'r', 'i', 'c', 'a'] = false := by
    decide
  have c2 : containsList ['s', 't', 'o', 'p'] ['非', '洲'] = false := by decide
  have c3 : containsList ['s', 't', 'o', 'p'] ['a', 's', 'i', 'a'] = false := by decide
  have c4 : containsList ['s', 't', 'o', 'p'] ['c', 'h', 'i', 'n', 'a'] = false := by decide
  have c5 : containsList ['s', 't', 'o', 'p'] ['亚', '洲'] = false := by decide
  have c6 : containsList ['s', 't', 'o', 'p'] ['中', '国'] = false := by decide
  have c7 : containsList ['s', 't', 'o', 'p'] ['a', 'm', 'e', 'r', 'i', 'c', 'a'] = false := by
    decide
  have c8 : containsList ['s', 't', 'o', 'p'] ['u', 's', 'a'] = false := by decide
  have c9 : containsList ['s', 't', 'o', 'p'] ['美', '洲'] = false := by decide
  have c10 : containsList ['s', 't', 'o', 'p'] ['美', '国'] = false := by decide
  have c11 : containsList ['s', 't', 'o', 'p'] ['e', 'u', 'r', 'o', 'p', 'e'] = false := by
    decide
  have c12 : containsList ['s', 't', 'o', 'p'] ['欧', '洲'] = false := by decide
  have c13 : containsList ['s', 't', 'o', 'p'] ['r', 'e', 's', 'e', 't'] = false := by decide
  have c14 : containsList ['s', 't', 'o', 'p'] ['s', 't', 'o', 'p'] = true := by decide
  refine ⟨?_, ⟨?_, ?_⟩, ?_⟩
  · norm_num [earthFrame, appEarthFrame, earth0, lerp]
  · have hv : onVoiceResult 5 ("stop".toList) stEur =
        { stEur with rotation := ⟨0, 0⟩, lastCmdTime := 5 } := by
      simp [onVoiceResult, e1, c1, c2, c3, c4, c5, c6, c7, c8, c9, c10, c11, c12, c13, c14]
    rw [hv]
    norm_num [stEur]
  · have hv : appOnVoiceResult ("stop".toList) appEur = appEur := by
      simp [appOnVoiceResult, e1, c1, c3, c4, c7, c11, c13]
    rw [hv]
  · norm_num [detectHand, appDetectHand, st0, app0, lm0]

/-- C9 (amended): as far as the code shared by both copies goes they do
agree — outside the `part_000` voice-suppression window, one detect-loop
hand step computes the same rotation, scale and panel updates in both
copies from the same inputs, and the scale smoothing of the render
callback is the same `lerp` with factor 0.1 in both — but the rotation
smoothing factors (0.05 vs 0.1), the suppression window and the voice
keyword tables differ, as `versions_differ_cex` shows. -/
theorem versions_agree_outside_window (sqrt : ℚ → ℚ) (w h : ℚ) (now : ℤ)
    (st : ControlState) (ast : AppControlState)
    (hr : st.rotation = ast.rotation) (hs : st.scale = ast.scale)
    (hp : st.panel = ast.panel) (hwin : ¬ (now - st.lastCmdTime < 3000))
    (lm : HandSample) :
    ((detectHand sqrt w h now st lm).rotation = (appDetectHand sqrt w h ast lm).rotation ∧
      (detectHand sqrt w h now st lm).scale = (appDetectHand sqrt w h ast lm).scale ∧
      (detectHand sqrt w h now st lm).panel = (appDetectHand sqrt w h ast lm).panel) ∧
    (∀ (target : Rot) (sc : ℚ) (e : EarthState),
      (earthFrame target sc e).scl = (appEarthFrame target sc e).scl) := by
  constructor
  · simp only [detectHand, appDetectHand]
    by_cases hx : (lm 0).x > 0.5
    · rw [if_pos hx, if_pos hx, if_pos hwin]
      exact ⟨rfl, rfl, hp⟩
    · rw [if_neg hx, if_neg hx]
      by_cases hpinch : getDistance sqrt (lm 4) (lm 8) < 0.05
      · rw [if_pos hpinch, if_pos hpinch]
        exact ⟨hr, hs, rfl⟩
      · rw [if_neg hpinch, if_neg hpinch]
        exact ⟨hr, hs, hp⟩
  · intro target sc e
    rfl

/-- Witness for `versions_agree_outside_window` on the aligned concrete
states `st0`/`app0` at `now = 4000` (window inactive). -/
theorem versions_agree_outside_window_witness :
    ((detectHand id 100 100 4000 st0 lm0).rotation =
        (appDetectHand id 100 100 app0 lm0).rotation ∧
      (detectHand id 100 100 4000 st0 lm0).scale =
        (appDetectHand id 100 100 app0 lm0).scale ∧
      (detectHand id 100 100 4000 st0 lm0).panel =
        (appDetectHand id 100 100 app0 lm0).panel) ∧
    (∀ (target : Rot) (sc : ℚ) (e : EarthState),
      (earthFrame target sc e).scl = (appEarthFrame target sc e).scl) :=
  versions_agree_outside_window id 100 100 4000 st0 app0 rfl rfl rfl
    (by norm_num [st0]) lm0

/-- Every scale value the detect-loop hand step can write stays in
`[0.5, 2.5]`: the Orientation branch writes a clamped value, every other
branch keeps the previous scale. -/
theorem detectHand_scale_bounds (sqrt : ℚ → ℚ) (w h : ℚ) (now : ℤ)
    (st : ControlState) (lm : HandSample)
    (hst : 0.5 ≤ st.scale ∧ st.scale ≤ 2.5) :
    0.5 ≤ (detectHand sqrt w h now st lm).scale ∧
    (detectHand sqrt w h now st lm).scale ≤ 2.5 := by
  simp only [detectHand]
  by_cases h1 : (lm 0).x > 0.5
  · rw [if_pos h1]
    by_cases h2 : ¬ (now - st.lastCmdTime < 3000)
    · rw [if_pos h2]
      exact ⟨le_max_left _ _, max_le (by norm_num) (min_le_left _ _)⟩
    · rw [if_neg h2]
      exact hst
  · rw [if_neg h1]
    by_cases h3 : getDistance sqrt (lm 4) (lm 8) < 0.05
    · rw [if_pos h3]
      exact hst
    · rw [if_neg h3]
      exact hst

/-- A `lerp` with factor in `[0, 1]` of two values inside an interval
stays inside the interval. -/
theorem lerp_bounds (a b t lo hi : ℚ) (h0 : 0 ≤ t) (h1 : t ≤ 1)
    (ha : lo ≤ a ∧ a ≤ hi) (hb : lo ≤ b ∧ b ≤ hi) :
    lo ≤ lerp a b t ∧ lerp a b t ≤ hi := by
  have h1t : 0 ≤ 1 - t := by linarith
  simp only [lerp]
  constructor
  · nlinarith [mul_nonneg (sub_nonneg.mpr ha.1) h1t, mul_nonneg (sub_nonneg.mpr hb.1) h0]
  · nlinarith [mul_nonneg (sub_nonneg.mpr ha.2) h1t, mul_nonneg (sub_nonneg.mpr hb.2) h0]

/-- C10: in every state reachable from the initial `part_000` state by
any interleaving of detect-loop hand events, voice events and render
frames, both the scale target (initialized to 1, only ever overwritten
by clamped values) and the rendered scale (a factor-0.1 `lerp` of its
previous value and the target each frame) lie in `[0.5, 2.5]`. -/
theorem reachable_scale_invariant (s : SysState) (hreach : Reachable s) :
    (0.5 ≤ s.ctrl.scale ∧ s.ctrl.scale ≤ 2.5) ∧
    (0.5 ≤ s.earth.scl ∧ s.earth.scl ≤ 2.5) := by
  induction hreach with
  | init w => norm_num [initState]
  | step s1 s2 hre hstep ih =>
    cases hstep with
    | hand sqrt w hh now lm =>
      exact ⟨detectHand_scale_bounds sqrt w hh now s1.ctrl lm ih.1, ih.2⟩
    | voice now t =>
      refine ⟨?_, ih.2⟩
      show 0.5 ≤ (onVoiceResult now t s1.ctrl).scale ∧
        (onVoiceResult now t s1.ctrl).scale ≤ 2.5
      rw [onVoiceResult_scale]
      exact ih.1
    | render =>
      refine ⟨ih.1, ?_⟩
      show 0.5 ≤ (earthFrame s1.ctrl.rotation s1.ctrl.scale s1.earth).scl ∧
        (earthFrame s1.ctrl.rotation s1.ctrl.scale s1.earth).scl ≤ 2.5
      exact lerp_bounds s1.earth.scl s1.ctrl.scale 0.1 0.5 2.5 (by norm_num) (by norm_num)
        ih.2 ih.1

/-- Witness for `reachable_scale_invariant` at the initial state itself
(screen width 1000), which is reachable by definition. -/
theorem reachable_scale_invariant_witness :
    (0.5 ≤ (initState 1000).ctrl.scale ∧ (initState 1000).ctrl.scale ≤ 2.5) ∧
    (0.5 ≤ (initState 1000).earth.scl ∧ (initState 1000).earth.scl ≤ 2.5) :=
  reachable_scale_invariant (initState 1000) (Reachable.init 1000)
